import Mathlib

/-!
Shallow embedding of the CDG (CD+Graphics) decode / render / clock pipeline of
the disklavier-karaoke repository (source file: the CDG player and parser
module).  Bytes are modelled as `Nat` (values < 256 in well-formed input),
byte streams as `List Nat`, timestamps and durations as `ℚ` (the source uses
JS numbers; all quantities here are exact small rationals such as
`i / 300 * 1000`), and the fixed-size pixel / palette / RGBA buffers as total
functions from the index `Nat`; the source only ever reads them inside their
bounds.  File I/O (`fs.readFileSync`) is abstracted: `parseCdgFile` takes the
byte list the source reads from the path.
-/

namespace Cdg

/-- CDG constants, from the parser module header. -/
def CDG_WIDTH : Nat := 300

def CDG_HEIGHT : Nat := 216

def CDG_VISIBLE_WIDTH : Nat := 288

def CDG_VISIBLE_HEIGHT : Nat := 192

def CDG_BORDER_X : Nat := 6

def CDG_BORDER_Y : Nat := 12

def CDG_TILE_WIDTH : Nat := 6

def CDG_TILE_HEIGHT : Nat := 12

def CDG_PACKETS_PER_SECOND : Nat := 300

def CDG_PACKET_SIZE : Nat := 24

def CDG_COLORS : Nat := 16

/-- CDG instruction opcode values (`CDG_INST` in the source). -/
def INST_MEMORY_PRESET : Nat := 1

def INST_BORDER_PRESET : Nat := 2

def INST_TILE_BLOCK : Nat := 6

def INST_SCROLL_PRESET : Nat := 20

def INST_SCROLL_COPY : Nat := 24

def INST_DEFINE_TRANSPARENT : Nat := 28

def INST_LOAD_COLOR_TABLE_LO : Nat := 30

def INST_LOAD_COLOR_TABLE_HI : Nat := 31

def INST_TILE_BLOCK_XOR : Nat := 38

/-- RGB color (`CdgColor` interface). -/
structure CdgColor where
  r : Nat
  g : Nat
  b : Nat
deriving DecidableEq, Repr

/-- The closed union of CDG instructions (`CdgInstruction` in the source).
`rep` is the source's `repeat` field of `CdgMemoryPreset`. -/
inductive CdgInstruction where
  | memoryPreset (color : Nat) (rep : Nat)
  | borderPreset (color : Nat)
  | tileBlock (xor : Bool) (color0 color1 row column : Nat) (pixels : List Nat)
  | scroll (copy : Bool) (color hScroll vScroll hOffset vOffset : Nat)
  | defineTransparent (color : Nat)
  | loadColorTable (offset : Nat) (colors : List CdgColor)
deriving DecidableEq, Repr

/-- One timestamped packet of the decoded stream (`CdgPacket`). -/
structure CdgPacket where
  timeMs : ℚ
  instruction : Option CdgInstruction
deriving DecidableEq, Repr

/-- Decoder output (`ParsedCdg`). -/
structure ParsedCdg where
  packets : List CdgPacket
  durationMs : ℚ
deriving DecidableEq, Repr

/-- `parseInstruction(instruction, data)`: decode the 16-byte data region of a
packet according to the 6-bit-masked opcode.  Unknown opcodes yield `none`. -/
def parseInstruction (instruction : Nat) (data : List Nat) : Option CdgInstruction :=
  if instruction = INST_MEMORY_PRESET then
    some (.memoryPreset (data.getD 0 0 &&& 0x0f) (data.getD 1 0 &&& 0x0f))
  else if instruction = INST_BORDER_PRESET then
    some (.borderPreset (data.getD 0 0 &&& 0x0f))
  else if instruction = INST_TILE_BLOCK ∨ instruction = INST_TILE_BLOCK_XOR then
    some (.tileBlock (instruction = INST_TILE_BLOCK_XOR)
      (data.getD 0 0 &&& 0x0f) (data.getD 1 0 &&& 0x0f)
      (data.getD 2 0 &&& 0x1f) (data.getD 3 0 &&& 0x3f)
      (((data.drop 4).take 12).map (· &&& 0x3f)))
  else if instruction = INST_SCROLL_PRESET ∨ instruction = INST_SCROLL_COPY then
    some (.scroll (instruction = INST_SCROLL_COPY)
      (data.getD 0 0 &&& 0x0f)
      ((data.getD 1 0 &&& 0x30) >>> 4) ((data.getD 2 0 &&& 0x30) >>> 4)
      (data.getD 1 0 &&& 0x07) (data.getD 2 0 &&& 0x0f))
  else if instruction = INST_DEFINE_TRANSPARENT then
    some (.defineTransparent (data.getD 0 0 &&& 0x0f))
  else if instruction = INST_LOAD_COLOR_TABLE_LO ∨ instruction = INST_LOAD_COLOR_TABLE_HI then
    some (.loadColorTable (if instruction = INST_LOAD_COLOR_TABLE_HI then 8 else 0)
      ((List.range 8).map (fun i =>
        let lo := data.getD (i * 2) 0 &&& 0x3f
        let hi := data.getD (i * 2 + 1) 0 &&& 0x3f
        { r := ((lo &&& 0x3c) >>> 2) * 17
          g := (((lo &&& 0x03) <<< 2) ||| ((hi &&& 0x30) >>> 4)) * 17
          b := (hi &&& 0x0f) * 17 })))
  else
    none

/-- `parseCdgFile`: split the byte stream into 24-byte packets (trailing
partial bytes dropped), keep the packets whose 6-bit command is `0x09` and
whose opcode is known, each stamped `i / 300 * 1000` ms. -/
def parseCdgFile (bytes : List Nat) : ParsedCdg :=
  let numPackets := bytes.length / CDG_PACKET_SIZE
  let durationMs : ℚ := (numPackets : ℚ) / (CDG_PACKETS_PER_SECOND : ℚ) * 1000
  let packets := (List.range numPackets).filterMap (fun i =>
    let packet := (bytes.drop (i * CDG_PACKET_SIZE)).take CDG_PACKET_SIZE
    let command := packet.getD 0 0 &&& 0x3f
    let instruction := packet.getD 1 0 &&& 0x3f
    if command ≠ 0x09 then none
    else
      let timeMs : ℚ := (i : ℚ) / (CDG_PACKETS_PER_SECOND : ℚ) * 1000
      let data := (packet.drop 4).take 16
      match parseInstruction instruction data with
      | some parsed => some { timeMs := timeMs, instruction := some parsed }
      | none => none)
  { packets := packets, durationMs := durationMs }

/-! ## Renderer (`CdgRenderer` class)

The 300×216 indexed-pixel buffer (`Uint8Array` in the source) is modelled as
a total function from the flat index `y * 300 + x`; the palette likewise.
The source's in-place loop mutations are expressed as pointwise function
updates over exactly the index region each loop writes. -/

/-- Renderer state (the private fields of `CdgRenderer`).  The source keeps
`transparentColor` as a JS number initialised to `-1`, hence `Int` here. -/
structure CdgRenderer where
  pixels : Nat → Nat
  palette : Nat → CdgColor
  transparentColor : Int
  borderColor : Nat
  hOffset : Nat
  vOffset : Nat

/-- The constructor's initial state; `reset()` assigns exactly the same. -/
def CdgRenderer.init : CdgRenderer :=
  { pixels := fun _ => 0
    palette := fun _ => { r := 0, g := 0, b := 0 }
    transparentColor := -1
    borderColor := 0
    hOffset := 0
    vOffset := 0 }

/-- `reset()`. -/
def CdgRenderer.reset (_ : CdgRenderer) : CdgRenderer := CdgRenderer.init

/-- `drawBorder(color)`: the four border loops (top and bottom 12-row bands
over all columns, left and right 6-column bands over the middle rows). -/
def CdgRenderer.drawBorder (rend : CdgRenderer) (color : Nat) : CdgRenderer :=
  { rend with pixels := fun idx =>
      let x := idx % CDG_WIDTH
      let y := idx / CDG_WIDTH
      if (y < CDG_BORDER_Y)
          ∨ (CDG_HEIGHT - CDG_BORDER_Y ≤ y ∧ y < CDG_HEIGHT)
          ∨ (CDG_BORDER_Y ≤ y ∧ y < CDG_HEIGHT - CDG_BORDER_Y ∧ x < CDG_BORDER_X)
          ∨ (CDG_BORDER_Y ≤ y ∧ y < CDG_HEIGHT - CDG_BORDER_Y ∧
              CDG_WIDTH - CDG_BORDER_X ≤ x) then
        color
      else rend.pixels idx }

/-- `drawTile(tile)`: draw or XOR a 6×12 tile at pixel origin
`(column*6, row*12)`; silently no-op when the tile's bounding box exceeds the
grid.  Bit `5 - col` of a row's 6-bit value selects `color1` over `color0`. -/
def CdgRenderer.drawTile (rend : CdgRenderer) (xor : Bool)
    (color0 color1 row column : Nat) (pixels : List Nat) : CdgRenderer :=
  let startX := column * CDG_TILE_WIDTH
  let startY := row * CDG_TILE_HEIGHT
  if startX + CDG_TILE_WIDTH > CDG_WIDTH ∨ startY + CDG_TILE_HEIGHT > CDG_HEIGHT then
    rend
  else
    { rend with pixels := fun idx =>
        let x := idx % CDG_WIDTH
        let y := idx / CDG_WIDTH
        if startY ≤ y ∧ y < startY + CDG_TILE_HEIGHT ∧
            startX ≤ x ∧ x < startX + CDG_TILE_WIDTH then
          let pixelData := pixels.getD (y - startY) 0
          let bit := (pixelData >>> (5 - (x - startX))) &&& 1
          let color := if bit = 1 then color1 else color0
          if xor then rend.pixels idx ^^^ color else color
        else rend.pixels idx }

/-- `scrollDisplay(scroll)`: rebuild the buffer shifted by a signed tile
multiple; in copy mode source coordinates wrap toroidally
(`((s % W) + W) % W`, i.e. `Int.emod` into `[0, W)`), otherwise out-of-range
sources are replaced by `color`.  The rebuild covers exactly the
`300 * 216` indices the source's loops write. -/
def CdgRenderer.scrollDisplay (rend : CdgRenderer) (copy : Bool)
    (color hScroll vScroll : Nat) : CdgRenderer :=
  let hDir : Int := if hScroll = 2 then -(CDG_TILE_WIDTH : Int)
    else if hScroll = 1 then (CDG_TILE_WIDTH : Int) else 0
  let vDir : Int := if vScroll = 2 then -(CDG_TILE_HEIGHT : Int)
    else if vScroll = 1 then (CDG_TILE_HEIGHT : Int) else 0
  { rend with pixels := fun idx =>
      if idx < CDG_WIDTH * CDG_HEIGHT then
        let x : Int := (idx % CDG_WIDTH : Nat)
        let y : Int := (idx / CDG_WIDTH : Nat)
        let srcX := x + hDir
        let srcY := y + vDir
        if copy then
          rend.pixels ((srcY.emod CDG_HEIGHT).toNat * CDG_WIDTH + (srcX.emod CDG_WIDTH).toNat)
        else if srcX < 0 ∨ (CDG_WIDTH : Int) ≤ srcX ∨ srcY < 0 ∨ (CDG_HEIGHT : Int) ≤ srcY then
          color
        else
          rend.pixels (srcY.toNat * CDG_WIDTH + srcX.toNat)
      else rend.pixels idx }

/-- `applyInstruction(inst)`: the renderer's transition function. -/
def CdgRenderer.applyInstruction (rend : CdgRenderer) (inst : CdgInstruction) : CdgRenderer :=
  match inst with
  | .memoryPreset color rep =>
    if rep = 0 then { rend with pixels := fun _ => color } else rend
  | .borderPreset color =>
    ({ rend with borderColor := color } : CdgRenderer).drawBorder color
  | .tileBlock xor color0 color1 row column pixels =>
    rend.drawTile xor color0 color1 row column pixels
  | .scroll copy color hScroll vScroll hOffset vOffset =>
    let rend := { rend with hOffset := hOffset, vOffset := vOffset }
    if hScroll ≠ 0 ∨ vScroll ≠ 0 then rend.scrollDisplay copy color hScroll vScroll
    else rend
  | .defineTransparent color =>
    { rend with transparentColor := (color : Int) }
  | .loadColorTable offset colors =>
    { rend with palette := fun i =>
        if offset ≤ i ∧ i < offset + 8 then colors.getD (i - offset) { r := 0, g := 0, b := 0 }
        else rend.palette i }

/-- `getRgbaFrame()`: the full 300×216 buffer as an RGBA byte function
(byte `i * 4 + ch`); alpha is 0 exactly on the transparent index. -/
def CdgRenderer.getRgbaFrame (rend : CdgRenderer) : Nat → Nat := fun off =>
  let i := off / 4
  let ch := off % 4
  let colorIdx := rend.pixels i
  let color := rend.palette colorIdx
  if ch = 0 then color.r
  else if ch = 1 then color.g
  else if ch = 2 then color.b
  else if (colorIdx : Int) = rend.transparentColor then 0 else 255

/-- `getVisibleRgbaFrame()`: the 288×192 window at
`(6 + hOffset, 12 + vOffset)` of the buffer, as RGBA bytes. -/
def CdgRenderer.getVisibleRgbaFrame (rend : CdgRenderer) : Nat → Nat := fun off =>
  let p := off / 4
  let ch := off % 4
  let y := p / CDG_VISIBLE_WIDTH
  let x := p % CDG_VISIBLE_WIDTH
  let srcX := x + CDG_BORDER_X + rend.hOffset
  let srcY := y + CDG_BORDER_Y + rend.vOffset
  let srcIdx := srcY * CDG_WIDTH + srcX
  let colorIdx := rend.pixels srcIdx
  let color := rend.palette colorIdx
  if ch = 0 then color.r
  else if ch = 1 then color.g
  else if ch = 2 then color.b
  else if (colorIdx : Int) = rend.transparentColor then 0 else 255

/-! ## Playback clock (`CdgPlayer` class)

The player is modelled as a state-passing machine: every public method
returns the updated player together with the list of events it emits, in
emission order.  Wall-clock reads (`Date.now()`) become an explicit `now`
argument.  The periodic ~33 ms animation loop is real-time driven and is
outside this model (spec §5 single-threaded timer); `animationFrame` records
whether a timer is currently scheduled. -/

/-- Consumer-visible player snapshot (`CdgPlayerState`; `fileType` is the
constant string `'cdg'` and is omitted). -/
structure CdgPlayerState where
  playing : Bool
  paused : Bool
  currentTime : ℚ
  duration : ℚ
  title : String
  singerName : String
  songId : Nat
  audioPath : Option String
deriving DecidableEq, Repr

/-- Frame snapshot (`CdgFrameData`); `rgba` is the byte function. -/
structure CdgFrameData where
  width : Nat
  height : Nat
  rgba : Nat → Nat
  timestamp : ℚ

/-- Events emitted through the player's `EventEmitter`, with their snapshot
payloads. -/
inductive CdgEvent where
  | playEv (st : CdgPlayerState)
  | pauseEv (st : CdgPlayerState)
  | stopEv (st : CdgPlayerState)
  | seekEv (timeMs : ℚ) (st : CdgPlayerState)
  | frameEv (fr : CdgFrameData)
  | updateEv (st : CdgPlayerState)
  | ended

/-- The `CdgPlayer`'s private fields. -/
structure CdgPlayer where
  cdgData : Option ParsedCdg
  renderer : CdgRenderer
  state : CdgPlayerState
  animationFrame : Bool
  lastUpdateTime : ℚ
  packetIndex : Nat
  startTime : ℚ
  pauseTime : ℚ

/-- The player's field initialisers (constructor state). -/
def CdgPlayer.init : CdgPlayer :=
  { cdgData := none
    renderer := CdgRenderer.init
    state :=
      { playing := false, paused := false, currentTime := 0, duration := 0
        title := "", singerName := "", songId := 0, audioPath := none }
    animationFrame := false
    lastUpdateTime := 0
    packetIndex := 0
    startTime := 0
    pauseTime := 0 }

/-- `getState()`. -/
def CdgPlayer.getState (pl : CdgPlayer) : CdgPlayerState := pl.state

/-- `getCurrentFrame()`. -/
def CdgPlayer.getCurrentFrame (pl : CdgPlayer) : Option CdgFrameData :=
  match pl.cdgData with
  | none => none
  | some _ =>
    some { width := CDG_VISIBLE_WIDTH, height := CDG_VISIBLE_HEIGHT
           rgba := pl.renderer.getVisibleRgbaFrame, timestamp := pl.state.currentTime }

/-- `emitFrame()`'s event list: a frame event when a file is loaded. -/
def CdgPlayer.emitFrame (pl : CdgPlayer) : List CdgEvent :=
  match pl.getCurrentFrame with
  | some fr => [.frameEv fr]
  | none => []

/-- The cursor loop shared by `applyPacketsUpTo` / `applyPacketsFromTo`:
walk the packet list while `timeMs ≤` the target, applying each non-null
instruction; returns how many packets were consumed and the new renderer. -/
def applyPacketsLoop (timeMs : ℚ) : List CdgPacket → CdgRenderer → Nat × CdgRenderer
  | [], rend => (0, rend)
  | p :: rest, rend =>
    if p.timeMs ≤ timeMs then
      let res := applyPacketsLoop timeMs rest
        (match p.instruction with
         | some inst => rend.applyInstruction inst
         | none => rend)
      (res.1 + 1, res.2)
    else (0, rend)

/-- `applyPacketsUpTo(timeMs)`: replay from the cursor through every packet
stamped `≤ timeMs`, then set `state.currentTime = timeMs`. -/
def CdgPlayer.applyPacketsUpTo (pl : CdgPlayer) (timeMs : ℚ) : CdgPlayer :=
  match pl.cdgData with
  | none => pl
  | some cdg =>
    let res := applyPacketsLoop timeMs (cdg.packets.drop pl.packetIndex) pl.renderer
    { pl with renderer := res.2, packetIndex := pl.packetIndex + res.1
              state := { pl.state with currentTime := timeMs } }

/-- `applyPacketsFromTo(fromMs, toMs)`: same cursor walk up to `toMs`
(`fromMs` is unused in the source as well); does not touch `currentTime`. -/
def CdgPlayer.applyPacketsFromTo (pl : CdgPlayer) (_fromMs toMs : ℚ) : CdgPlayer :=
  match pl.cdgData with
  | none => pl
  | some cdg =>
    let res := applyPacketsLoop toMs (cdg.packets.drop pl.packetIndex) pl.renderer
    { pl with renderer := res.2, packetIndex := pl.packetIndex + res.1 }

/-- `stopAnimationLoop()`. -/
def CdgPlayer.stopAnimationLoop (pl : CdgPlayer) : CdgPlayer :=
  { pl with animationFrame := false }

/-- `stop()`: halt the loop, reset renderer and cursor when a file is loaded,
zero the transport flags, and emit a stop event (unconditionally). -/
def CdgPlayer.stop (pl : CdgPlayer) : CdgPlayer × List CdgEvent :=
  let pl := pl.stopAnimationLoop
  let pl :=
    match pl.cdgData with
    | some _ => { pl with renderer := pl.renderer.reset, packetIndex := 0 }
    | none => pl
  let pl := { pl with state :=
      { pl.state with playing := false, paused := false, currentTime := 0 } }
  (pl, [.stopEv pl.getState])

/-- `play(now)`: start or resume playback; no-op when unloaded or already
playing-and-unpaused.  Starting the animation loop is modelled as scheduling
the timer (`animationFrame := true`); its ticks are real-time driven. -/
def CdgPlayer.play (pl : CdgPlayer) (now : ℚ) : CdgPlayer × List CdgEvent :=
  match pl.cdgData with
  | none => (pl, [])
  | some _ =>
    if pl.state.playing ∧ ¬pl.state.paused then (pl, [])
    else
      let pl :=
        if pl.state.paused then { pl with startTime := pl.startTime + (now - pl.pauseTime) }
        else { pl with startTime := now }
      let pl := { pl with
        state := { pl.state with playing := true, paused := false }
        lastUpdateTime := now
        animationFrame := true }
      (pl, [.playEv pl.getState])

/-- `pause(now)`: only while playing-and-unpaused. -/
def CdgPlayer.pause (pl : CdgPlayer) (now : ℚ) : CdgPlayer × List CdgEvent :=
  if ¬pl.state.playing ∨ pl.state.paused then (pl, [])
  else
    let pl := { pl with state := { pl.state with paused := true }, pauseTime := now }
    let pl := pl.stopAnimationLoop
    (pl, [.pauseEv pl.getState])

/-- `seek(now, timeMs)`: clamp to `[0, duration]`, reset renderer and cursor,
replay everything up to the target, re-anchor the free-running clock when
playing, and emit a frame plus a seek event. -/
def CdgPlayer.seek (pl : CdgPlayer) (now timeMs : ℚ) : CdgPlayer × List CdgEvent :=
  match pl.cdgData with
  | none => (pl, [])
  | some _ =>
    let t := max 0 (min timeMs pl.state.duration)
    let pl := { pl with renderer := pl.renderer.reset, packetIndex := 0 }
    let pl := pl.applyPacketsUpTo t
    let pl := { pl with state := { pl.state with currentTime := t } }
    let pl :=
      if pl.state.playing ∧ ¬pl.state.paused then { pl with startTime := now - t }
      else pl
    (pl, pl.emitFrame ++ [.seekEv t pl.getState])

/-- The tail of `syncToAudioTime` after the forward-replay / jitter branch:
record the reported time, and stop + emit `ended` at end of song. -/
def CdgPlayer.syncFinish (pl : CdgPlayer) (audioTimeMs : ℚ) : CdgPlayer × List CdgEvent :=
  let pl := { pl with state := { pl.state with currentTime := audioTimeMs } }
  if audioTimeMs ≥ pl.state.duration then
    let res := pl.stop
    (res.1, res.2 ++ [.ended])
  else (pl, [])

/-- `syncToAudioTime(now, audioTimeMs)`: the externally driven time source.
Forward motion replays the newly crossed packets; a backward jump of more
than 1000 ms becomes a `seek`; small backward jitter only records the time. -/
def CdgPlayer.syncToAudioTime (pl : CdgPlayer) (now audioTimeMs : ℚ) : CdgPlayer × List CdgEvent :=
  match pl.cdgData with
  | none => (pl, [])
  | some _ =>
    if ¬pl.state.playing ∨ pl.state.paused then (pl, [])
    else if audioTimeMs > pl.state.currentTime then
      (pl.applyPacketsFromTo pl.state.currentTime audioTimeMs).syncFinish audioTimeMs
    else if audioTimeMs < pl.state.currentTime - 1000 then
      pl.seek now audioTimeMs
    else
      pl.syncFinish audioTimeMs

/-- `loadSong(bytes, audioPath, title, singerName, songId)`: stop, decode
(the file read is abstracted to the byte list), reset the renderer and
cursor, install the fresh state, apply the packets stamped `≤ 0`, and emit
an initial frame. -/
def CdgPlayer.loadSong (pl : CdgPlayer) (bytes : List Nat) (audioPath : String)
    (title singerName : String) (songId : Nat) : CdgPlayer × List CdgEvent :=
  let res := pl.stop
  let pl := res.1
  let pl := { pl with cdgData := some (parseCdgFile bytes) }
  let pl := { pl with renderer := pl.renderer.reset, packetIndex := 0 }
  let pl := { pl with state :=
      { playing := false, paused := false, currentTime := 0
        duration := (parseCdgFile bytes).durationMs
        title := title, singerName := singerName, songId := songId
        audioPath := some audioPath } }
  let pl := pl.applyPacketsUpTo 0
  (pl, res.2 ++ pl.emitFrame)

/-- Folding `syncToAudioTime` over a list of reported audio times. -/
def CdgPlayer.syncChain (pl : CdgPlayer) (now : ℚ) (ts : List ℚ) : CdgPlayer :=
  ts.foldl (fun s t => (s.syncToAudioTime now t).1) pl

/-! ## Specification-level definitions used by the theorems -/

/-- `applyPacket`: apply one decoded packet's instruction, if present. -/
def applyPacket (rend : CdgRenderer) (p : CdgPacket) : CdgRenderer :=
  match p.instruction with
  | some inst => rend.applyInstruction inst
  | none => rend

/-- Replaying a packet list in order from a given renderer state. -/
def replayList (l : List CdgPacket) (rend : CdgRenderer) : CdgRenderer :=
  l.foldl applyPacket rend

/-- The time-bound predicate used by the replay cursor. -/
def timeLE (t : ℚ) : CdgPacket → Bool := fun p => p.timeMs ≤ t

/-- Number of packets stamped `≤ t` at the head of the (sorted) list. -/
def countLE (l : List CdgPacket) (t : ℚ) : Nat := (l.takeWhile (timeLE t)).length

/-- Field bounds guaranteed by the decoder's masking. -/
def InstWF : CdgInstruction → Prop
  | .memoryPreset color _ => color < 16
  | .borderPreset color => color < 16
  | .tileBlock _ color0 color1 _ _ _ => color0 < 16 ∧ color1 < 16
  | .scroll _ color _ _ _ _ => color < 16
  | .defineTransparent _ => True
  | .loadColorTable _ _ => True

/-- The cursor / renderer / transport invariant maintained by
`syncToAudioTime` while the target stays below `tn` and below the duration. -/
def SyncInv (cdg : ParsedCdg) (tn : ℚ) (s : CdgPlayer) : Prop :=
  s.cdgData = some cdg
  ∧ s.state.playing = true
  ∧ s.state.paused = false
  ∧ s.state.duration = cdg.durationMs
  ∧ s.renderer = replayList (cdg.packets.take s.packetIndex) CdgRenderer.init
  ∧ countLE cdg.packets s.state.currentTime ≤ s.packetIndex
  ∧ s.packetIndex ≤ countLE cdg.packets tn
  ∧ s.state.currentTime ≤ tn

/-- The failing input for the viewport-offset invariant: a scroll-preset
packet whose data byte 1 is `0x07` and data byte 2 is `0x0f` (no tile
scroll, maximal sub-tile offsets). -/
def scrollOffsetPacket : List Nat :=
  [0x09, 20, 0, 0, 0, 0x07, 0x0f, 0, 0, 0, 0, 0, 0, 0, 0, 0, 0, 0, 0, 0, 0, 0, 0, 0]

/-- A single memory-preset packet used as a concrete file. -/
def presetPacket : List Nat :=
  [0x09, 1, 0, 0, 3, 0, 0, 0, 0, 0, 0, 0, 0, 0, 0, 0, 0, 0, 0, 0, 0, 0, 0, 0]

/-- A 48-byte file: packet 0 is not a CDG packet, packet 1 (at `10/3` ms)
defines palette index 0 as transparent. -/
def jitterBytes : List Nat :=
  [0, 0, 0, 0, 0, 0, 0, 0, 0, 0, 0, 0, 0, 0, 0, 0, 0, 0, 0, 0, 0, 0, 0, 0,
   0x09, 28, 0, 0, 0, 0, 0, 0, 0, 0, 0, 0, 0, 0, 0, 0, 0, 0, 0, 0, 0, 0, 0, 0]

def jitterLoaded : CdgPlayer := (CdgPlayer.init.loadSong jitterBytes "a" "t" "s" 1).1

def jitterPlaying : CdgPlayer := (jitterLoaded.play 0).1

def jitterSynced : CdgPlayer := (jitterPlaying.syncToAudioTime 0 5).1


/-! ## Theorems -/

theorem land_15 (x : Nat) : x &&& 15 = x % 16 := by
  have h := Nat.and_pow_two_sub_one_eq_mod x 4
  norm_num at h
  exact h

theorem land_63 (x : Nat) : x &&& 63 = x % 64 := by
  have h := Nat.and_pow_two_sub_one_eq_mod x 6
  norm_num at h
  exact h

theorem land_31 (x : Nat) : x &&& 31 = x % 32 := by
  have h := Nat.and_pow_two_sub_one_eq_mod x 5
  norm_num at h
  exact h

theorem land_7 (x : Nat) : x &&& 7 = x % 8 := by
  have h := Nat.and_pow_two_sub_one_eq_mod x 3
  norm_num at h
  exact h

set_option maxRecDepth 4000 in
theorem bits45_byte : ∀ x < 256, (x &&& 48) >>> 4 = x / 16 % 4 := by decide

set_option maxRecDepth 4000 in
theorem ct_r64 : ∀ lo < 64, (lo &&& 60) >>> 2 = lo / 4 := by decide

set_option maxRecDepth 4000 in
theorem ct_g : ∀ lo < 64, ∀ hi < 64,
    (((lo &&& 3) <<< 2) ||| ((hi &&& 48) >>> 4)) = lo % 4 * 4 + hi / 16 := by decide

set_option maxRecDepth 4000 in
theorem xor_lt_16 : ∀ x < 16, ∀ y < 16, x ^^^ y < 16 := by decide

theorem parseCdgFile_single (c o r2 r3 : Nat) (data tail4 : List Nat)
    (hc : c &&& 63 = 9) (hdlen : data.length = 16) (htlen : tail4.length = 4) :
    (parseCdgFile (c :: o :: r2 :: r3 :: (data ++ tail4))).packets
      = match parseInstruction (o &&& 63) data with
        | some inst => [{ timeMs := 0, instruction := some inst }]
        | none => [] := by
  have hlen : (c :: o :: r2 :: r3 :: (data ++ tail4)).length = 24 := by
    simp [hdlen, htlen]
  have hnum : (c :: o :: r2 :: r3 :: (data ++ tail4)).length / CDG_PACKET_SIZE = 1 := by
    rw [hlen]; rfl
  unfold parseCdgFile
  simp only [hnum]
  rw [show List.range 1 = [0] from rfl]
  simp only [List.filterMap_cons, List.filterMap_nil, Nat.zero_mul, List.drop_zero,
    CDG_PACKET_SIZE]
  rw [List.take_of_length_le (le_of_eq hlen)]
  simp only [List.getD_cons_zero, List.getD_cons_succ, List.drop_succ_cons, List.drop_zero, hc]
  rw [List.take_left' hdlen]
  rw [if_neg (by decide : ¬(9 ≠ 9))]
  cases hp : parseInstruction (o &&& 63) data with
  | none => rfl
  | some inst =>
    simp only [Nat.cast_zero, zero_div, zero_mul]

theorem parseInstruction_wf (op : Nat) (data : List Nat) (inst : CdgInstruction)
    (hparse : parseInstruction op data = some inst) : InstWF inst := by
  have hand : ∀ x : Nat, x &&& 15 < 16 := fun x => by
    rw [land_15]; exact Nat.mod_lt x (by norm_num)
  unfold parseInstruction at hparse
  split_ifs at hparse <;> cases hparse <;> simp only [InstWF] <;>
    first
      | exact hand _
      | exact ⟨hand _, hand _⟩

theorem CdgRenderer.pixels_mk (p : Nat → Nat) (pal : Nat → CdgColor) (t : Int)
    (b h v : Nat) (i : Nat) : (CdgRenderer.mk p pal t b h v).pixels i = p i := rfl

theorem applyInstruction_pixels_lt (inst : CdgInstruction) (rend : CdgRenderer)
    (hwf : InstWF inst) (hpix : ∀ i, rend.pixels i < 16) :
    ∀ i, (rend.applyInstruction inst).pixels i < 16 := by
  intro i
  cases inst <;>
    simp only [CdgRenderer.applyInstruction, CdgRenderer.drawBorder, CdgRenderer.drawTile,
      CdgRenderer.scrollDisplay, InstWF, CdgRenderer.pixels_mk] at hwf ⊢ <;>
    (try split_ifs) <;>
    (try simp only [CdgRenderer.pixels_mk]) <;>
    (try split_ifs) <;>
    first
      | exact hpix _
      | exact hwf
      | exact hwf.1
      | exact hwf.2
      | exact xor_lt_16 _ (hpix _) _ hwf.1
      | exact xor_lt_16 _ (hpix _) _ hwf.2

theorem applyPacketsLoop_eq (t : ℚ) (l : List CdgPacket) (rend : CdgRenderer) :
    applyPacketsLoop t l rend
      = ((l.takeWhile (timeLE t)).length, replayList (l.takeWhile (timeLE t)) rend) := by
  induction l generalizing rend with
  | nil => rfl
  | cons p rest ih =>
    unfold applyPacketsLoop
    by_cases hp : p.timeMs ≤ t
    · rw [if_pos hp, List.takeWhile_cons_of_pos (by simpa [timeLE] using hp)]
      simp only [ih, List.length_cons]
      rfl
    · rw [if_neg hp, List.takeWhile_cons_of_neg (by simpa [timeLE] using hp)]
      rfl

theorem parse_sorted (bytes : List Nat) :
    (parseCdgFile bytes).packets.Pairwise (fun a b => a.timeMs ≤ b.timeMs) := by
  unfold parseCdgFile
  simp only
  rw [List.pairwise_filterMap]
  refine (List.pairwise_lt_range _).imp ?_
  intro i j hij
  intro x hx y hy
  simp only [Option.mem_def] at hx hy
  split_ifs at hx hy <;> try simp at hx hy
  split at hx
  case _ heq =>
    split at hy
    case _ heq2 =>
      injection hx with hx
      injection hy with hy
      subst hx
      subst hy
      show (i : ℚ) / (CDG_PACKETS_PER_SECOND : ℚ) * 1000
          ≤ (j : ℚ) / (CDG_PACKETS_PER_SECOND : ℚ) * 1000
      have hc : (i : ℚ) ≤ (j : ℚ) := by exact_mod_cast hij.le
      simp only [CDG_PACKETS_PER_SECOND]
      gcongr
    case _ => simp at hy
  case _ => simp at hx

theorem takeWhile_eq_filter_sorted (t : ℚ) (l : List CdgPacket)
    (hs : l.Pairwise (fun a b => a.timeMs ≤ b.timeMs)) :
    l.takeWhile (timeLE t) = l.filter (timeLE t) := by
  induction l with
  | nil => rfl
  | cons p rest ih =>
    rcases List.pairwise_cons.mp hs with ⟨hhead, htail⟩
    by_cases hp : p.timeMs ≤ t
    · rw [List.takeWhile_cons_of_pos (by simpa [timeLE] using hp),
        List.filter_cons_of_pos (by simpa [timeLE] using hp), ih htail]
    · rw [List.takeWhile_cons_of_neg (by simpa [timeLE] using hp),
        List.filter_cons_of_neg (by simpa [timeLE] using hp)]
      symm
      rw [List.filter_eq_nil_iff]
      intro q hq
      simp only [timeLE, decide_eq_true_eq]
      intro hqt
      exact hp (le_trans (hhead q hq) hqt)

theorem drop_takeWhile_sorted (t : ℚ) (n : Nat) (l : List CdgPacket)
    (hs : l.Pairwise (fun a b => a.timeMs ≤ b.timeMs)) :
    (l.drop n).takeWhile (timeLE t) = (l.takeWhile (timeLE t)).drop n := by
  induction n generalizing l with
  | zero => simp
  | succ n ih =>
    cases l with
    | nil => simp
    | cons p rest =>
      rcases List.pairwise_cons.mp hs with ⟨hhead, htail⟩
      by_cases hp : p.timeMs ≤ t
      · rw [List.drop_succ_cons, List.takeWhile_cons_of_pos (by simpa [timeLE] using hp),
          List.drop_succ_cons, ih rest htail]
      · rw [List.drop_succ_cons, List.takeWhile_cons_of_neg (by simpa [timeLE] using hp),
          List.drop_nil]
        cases hdrop : rest.drop n with
        | nil => simp
        | cons q qs =>
          have hq : q ∈ rest := List.drop_subset n rest (hdrop ▸ List.mem_cons_self q qs)
          rw [List.takeWhile_cons_of_neg]
          simp only [timeLE, decide_eq_true_eq]
          intro hqt
          exact hp (le_trans (hhead q hq) hqt)

theorem countLE_mono (l : List CdgPacket) {s t : ℚ} (h : s ≤ t) :
    countLE l s ≤ countLE l t := by
  induction l with
  | nil => exact le_refl _
  | cons p rest ih =>
    unfold countLE at ih ⊢
    by_cases hp : p.timeMs ≤ s
    · rw [List.takeWhile_cons_of_pos (by simpa [timeLE] using hp),
        List.takeWhile_cons_of_pos (by simpa [timeLE] using le_trans hp h)]
      simpa using ih
    · rw [List.takeWhile_cons_of_neg (by simpa [timeLE] using hp)]
      exact Nat.zero_le _

theorem take_takeWhile_of_le (l : List CdgPacket) (t : ℚ) (n : Nat)
    (h : n ≤ countLE l t) :
    l.take n = (l.takeWhile (timeLE t)).take n := by
  have hpre : l.takeWhile (timeLE t) = l.take (countLE l t) :=
    List.prefix_iff_eq_take.mp (List.takeWhile_prefix _)
  rw [hpre, List.take_take, min_eq_left h]

theorem replayList_append (a b : List CdgPacket) (rend : CdgRenderer) :
    replayList (a ++ b) rend = replayList b (replayList a rend) := by
  unfold replayList
  exact List.foldl_append _ _ _ _

/-- Advancing the cursor from position `n` of a sorted packet list: the new
cursor is `max n (countLE l t)` and the renderer replays the crossed
packets. -/
theorem advance_spec (t : ℚ) (l : List CdgPacket) (n : Nat)
    (hs : l.Pairwise (fun a b => a.timeMs ≤ b.timeMs)) :
    (applyPacketsLoop t (l.drop n) (replayList (l.take n) CdgRenderer.init)).1
        = countLE l t - n
    ∧ (n ≤ countLE l t →
        (applyPacketsLoop t (l.drop n) (replayList (l.take n) CdgRenderer.init)).2
          = replayList (l.takeWhile (timeLE t)) CdgRenderer.init)
    ∧ (countLE l t < n →
        (applyPacketsLoop t (l.drop n) (replayList (l.take n) CdgRenderer.init)).2
          = replayList (l.take n) CdgRenderer.init) := by
  rw [applyPacketsLoop_eq, drop_takeWhile_sorted t n l hs]
  refine ⟨by simp [countLE], fun hn => ?_, fun hn => ?_⟩
  · rw [take_takeWhile_of_le l t n hn, ← replayList_append, List.take_append_drop]
  · rw [List.drop_eq_nil_of_le (le_of_lt hn)]
    rfl

theorem applyPacketsFromTo_spec (s : CdgPlayer) (cdg : ParsedCdg) (f t : ℚ)
    (hd : s.cdgData = some cdg) :
    s.applyPacketsFromTo f t
      = { s with
          renderer := (applyPacketsLoop t (cdg.packets.drop s.packetIndex) s.renderer).2
          packetIndex :=
            s.packetIndex + (applyPacketsLoop t (cdg.packets.drop s.packetIndex) s.renderer).1 } := by
  unfold CdgPlayer.applyPacketsFromTo
  simp only [hd]

theorem syncFinish_below (s : CdgPlayer) (t : ℚ) (hlt : t < s.state.duration) :
    s.syncFinish t = ({ s with state := { s.state with currentTime := t } }, []) := by
  unfold CdgPlayer.syncFinish
  rw [if_neg]
  simpa using hlt

theorem seek_spec (pl : CdgPlayer) (cdg : ParsedCdg) (now t : ℚ)
    (hd : pl.cdgData = some cdg) :
    ((pl.seek now t).1).renderer
        = replayList (cdg.packets.takeWhile (timeLE (max 0 (min t pl.state.duration))))
            CdgRenderer.init
    ∧ ((pl.seek now t).1).packetIndex
        = (cdg.packets.takeWhile (timeLE (max 0 (min t pl.state.duration)))).length
    ∧ ((pl.seek now t).1).state.currentTime = max 0 (min t pl.state.duration)
    ∧ ((pl.seek now t).1).cdgData = pl.cdgData
    ∧ ((pl.seek now t).1).state.playing = pl.state.playing
    ∧ ((pl.seek now t).1).state.paused = pl.state.paused
    ∧ ((pl.seek now t).1).state.duration = pl.state.duration := by
  unfold CdgPlayer.seek CdgPlayer.applyPacketsUpTo
  simp only [hd]
  rw [applyPacketsLoop_eq]
  simp only [List.drop_zero, replayList]
  split_ifs <;> simp [CdgRenderer.reset, replayList]

theorem sync_step (cdg : ParsedCdg) (tn now t : ℚ) (s : CdgPlayer)
    (hs : cdg.packets.Pairwise (fun a b => a.timeMs ≤ b.timeMs))
    (hD : tn < cdg.durationMs) (h0 : 0 ≤ tn)
    (hinv : SyncInv cdg tn s) (ht : t ≤ tn) :
    SyncInv cdg tn ((s.syncToAudioTime now t).1) := by
  obtain ⟨hd, hplay, hpause, hdur, hrend, hlo, hhi, hcur⟩ := hinv
  unfold CdgPlayer.syncToAudioTime
  simp only [hd]
  rw [if_neg (by simp [hplay, hpause])]
  by_cases hgt : t > s.state.currentTime
  · rw [if_pos hgt]
    have hadv := advance_spec t cdg.packets s.packetIndex hs
    rw [← hrend] at hadv
    rw [applyPacketsFromTo_spec s cdg _ _ hd]
    rw [syncFinish_below _ _ (by simpa [hdur] using lt_of_le_of_lt ht hD)]
    by_cases hle : s.packetIndex ≤ countLE cdg.packets t
    · refine ⟨hd, hplay, hpause, hdur, ?_, ?_, ?_, ht⟩
      · show (applyPacketsLoop t (cdg.packets.drop s.packetIndex) s.renderer).2
          = replayList (cdg.packets.take (s.packetIndex
              + (applyPacketsLoop t (cdg.packets.drop s.packetIndex) s.renderer).1))
            CdgRenderer.init
        rw [hadv.2.1 hle, hadv.1, take_takeWhile_of_le cdg.packets t _ (by omega)]
        have hlen : s.packetIndex + (countLE cdg.packets t - s.packetIndex)
            = (cdg.packets.takeWhile (timeLE t)).length := by
          show _ = countLE cdg.packets t
          omega
        rw [hlen, List.take_length]
      · show countLE cdg.packets t ≤ s.packetIndex
          + (applyPacketsLoop t (cdg.packets.drop s.packetIndex) s.renderer).1
        rw [hadv.1]
        omega
      · show s.packetIndex
            + (applyPacketsLoop t (cdg.packets.drop s.packetIndex) s.renderer).1
          ≤ countLE cdg.packets tn
        rw [hadv.1]
        have := countLE_mono cdg.packets ht
        omega
    · push_neg at hle
      refine ⟨hd, hplay, hpause, hdur, ?_, ?_, ?_, ht⟩
      · show (applyPacketsLoop t (cdg.packets.drop s.packetIndex) s.renderer).2
          = replayList (cdg.packets.take (s.packetIndex
              + (applyPacketsLoop t (cdg.packets.drop s.packetIndex) s.renderer).1))
            CdgRenderer.init
        rw [hadv.2.2 hle, hadv.1]
        have hlen : s.packetIndex + (countLE cdg.packets t - s.packetIndex) = s.packetIndex := by
          omega
        rw [hlen, hrend]
      · show countLE cdg.packets t ≤ s.packetIndex
          + (applyPacketsLoop t (cdg.packets.drop s.packetIndex) s.renderer).1
        rw [hadv.1]
        omega
      · show s.packetIndex
            + (applyPacketsLoop t (cdg.packets.drop s.packetIndex) s.renderer).1
          ≤ countLE cdg.packets tn
        rw [hadv.1]
        omega
  · rw [if_neg hgt]
    by_cases hlt : t < s.state.currentTime - 1000
    · rw [if_pos hlt]
      have hsp := seek_spec s cdg now t hd
      obtain ⟨hr, hpi, hct, hcd, hpl, hpa, hdu⟩ := hsp
      have htc : max 0 (min t s.state.duration) ≤ tn := by
        have h1 : min t s.state.duration ≤ t := min_le_left _ _
        exact max_le h0 (le_trans h1 ht)
      refine ⟨hcd.trans hd, hpl.trans hplay, hpa.trans hpause, hdu.trans hdur, ?_, ?_, ?_, ?_⟩
      · rw [hr, hpi]
        show replayList (cdg.packets.takeWhile (timeLE (max 0 (min t s.state.duration))))
            CdgRenderer.init
          = replayList (cdg.packets.take (countLE cdg.packets (max 0 (min t s.state.duration))))
            CdgRenderer.init
        simp only [countLE]
        rw [← List.prefix_iff_eq_take.mp (List.takeWhile_prefix _)]
      · rw [hpi, hct]
        exact le_refl _
      · rw [hpi]
        exact countLE_mono cdg.packets htc
      · rw [hct]
        exact htc
    · rw [if_neg hlt]
      rw [syncFinish_below _ _ (by simpa [hdur] using lt_of_le_of_lt ht hD)]
      push_neg at hgt
      refine ⟨hd, hplay, hpause, hdur, hrend, ?_, hhi, ht⟩
      show countLE cdg.packets t ≤ s.packetIndex
      exact le_trans (countLE_mono cdg.packets hgt) hlo

theorem sync_last (cdg : ParsedCdg) (tn now : ℚ) (s : CdgPlayer)
    (hs : cdg.packets.Pairwise (fun a b => a.timeMs ≤ b.timeMs))
    (hD : tn < cdg.durationMs) (hinv : SyncInv cdg tn s) :
    ((s.syncToAudioTime now tn).1).renderer
      = replayList (cdg.packets.takeWhile (timeLE tn)) CdgRenderer.init := by
  obtain ⟨hd, hplay, hpause, hdur, hrend, hlo, hhi, hcur⟩ := hinv
  unfold CdgPlayer.syncToAudioTime
  simp only [hd]
  rw [if_neg (by simp [hplay, hpause])]
  by_cases hgt : tn > s.state.currentTime
  · rw [if_pos hgt]
    have hadv := advance_spec tn cdg.packets s.packetIndex hs
    rw [← hrend] at hadv
    rw [applyPacketsFromTo_spec s cdg _ _ hd]
    rw [syncFinish_below _ _ (by simpa [hdur] using hD)]
    exact hadv.2.1 hhi
  · rw [if_neg hgt]
    rw [if_neg (by push_neg at hgt ⊢; linarith)]
    rw [syncFinish_below _ _ (by simpa [hdur] using hD)]
    push_neg at hgt
    have hEq : s.state.currentTime = tn := le_antisymm hcur hgt
    have hidx : s.packetIndex = countLE cdg.packets tn :=
      le_antisymm hhi (hEq ▸ hlo)
    show s.renderer = _
    rw [hrend, hidx]
    unfold countLE
    rw [← List.prefix_iff_eq_take.mp (List.takeWhile_prefix _)]

theorem syncChain_inv (cdg : ParsedCdg) (tn now : ℚ)
    (hs : cdg.packets.Pairwise (fun a b => a.timeMs ≤ b.timeMs))
    (hD : tn < cdg.durationMs) (h0 : 0 ≤ tn) :
    ∀ (ts : List ℚ) (s : CdgPlayer), SyncInv cdg tn s → (∀ u ∈ ts, u ≤ tn) →
      SyncInv cdg tn (s.syncChain now ts) := by
  intro ts
  induction ts with
  | nil => exact fun s h _ => h
  | cons t rest ih =>
    intro s h hall
    show SyncInv cdg tn (CdgPlayer.syncChain ((s.syncToAudioTime now t).1) now rest)
    exact ih _ (sync_step cdg tn now t s hs hD h0 h (hall t (by simp)))
      (fun u hu => hall u (by simp [hu]))

theorem chain_le_getLast (l : List ℚ) (hne : l ≠ []) (hch : l.Chain' (· < ·)) :
    ∀ u ∈ l, u ≤ l.getLast hne := by
  induction l with
  | nil => cases hne rfl
  | cons a rest ih =>
    intro u hu
    cases rest with
    | nil =>
      simp only [List.mem_singleton] at hu
      subst hu
      simp
    | cons b rs =>
      rw [List.getLast_cons (by simp)]
      rcases List.mem_cons.mp hu with rfl | hu2
      · have hab : u < b := (List.chain'_cons.mp hch).1
        have hb := ih (by simp) (List.chain'_cons.mp hch).2 b (by simp)
        exact le_trans hab.le hb
      · exact ih (by simp) (List.chain'_cons.mp hch).2 u hu2

theorem jitter_parse : (parseCdgFile jitterBytes).packets
    = [{ timeMs := ((1 : Nat) : ℚ) / ((CDG_PACKETS_PER_SECOND : Nat) : ℚ) * 1000,
         instruction := some (.defineTransparent 0) }] := rfl

theorem jitter_duration : (parseCdgFile jitterBytes).durationMs
    = ((2 : Nat) : ℚ) / ((CDG_PACKETS_PER_SECOND : Nat) : ℚ) * 1000 := rfl

theorem jitter_playing_fields :
    jitterPlaying.cdgData = some (parseCdgFile jitterBytes)
    ∧ jitterPlaying.state.playing = true
    ∧ jitterPlaying.state.paused = false
    ∧ jitterPlaying.state.currentTime = 0
    ∧ jitterPlaying.state.duration = (parseCdgFile jitterBytes).durationMs
    ∧ jitterPlaying.packetIndex = 0
    ∧ jitterPlaying.renderer = CdgRenderer.init := by
  have hloop0 : applyPacketsLoop 0 ((parseCdgFile jitterBytes).packets.drop 0)
      CdgRenderer.init = (0, CdgRenderer.init) := by
    rw [List.drop_zero, jitter_parse]
    unfold applyPacketsLoop
    rw [if_neg ?hc]
    case hc => norm_num [CDG_PACKETS_PER_SECOND]
  refine ⟨rfl, rfl, rfl, rfl, rfl, ?_, ?_⟩
  · show 0 + (applyPacketsLoop 0 ((parseCdgFile jitterBytes).packets.drop 0)
        CdgRenderer.init).1 = 0
    rw [hloop0]
    rfl
  · show (applyPacketsLoop 0 ((parseCdgFile jitterBytes).packets.drop 0)
        CdgRenderer.init).2 = CdgRenderer.init
    rw [hloop0]

theorem jitter_synced_eq : jitterSynced
    = { jitterPlaying with
        renderer := CdgRenderer.init.applyInstruction (.defineTransparent 0)
        packetIndex := 1
        state := { jitterPlaying.state with currentTime := 5 } } := by
  obtain ⟨hcd, hpl, hpa, hct, hdu, hpi, hre⟩ := jitter_playing_fields
  show (jitterPlaying.syncToAudioTime 0 5).1 = _
  unfold CdgPlayer.syncToAudioTime
  simp only [hcd]
  rw [if_neg (by simp [hpl, hpa])]
  rw [if_pos (by rw [hct]; norm_num)]
  rw [applyPacketsFromTo_spec jitterPlaying (parseCdgFile jitterBytes) _ _ hcd]
  have hloop5 : applyPacketsLoop 5 ((parseCdgFile jitterBytes).packets.drop
      jitterPlaying.packetIndex) jitterPlaying.renderer
      = (1, CdgRenderer.init.applyInstruction (.defineTransparent 0)) := by
    rw [hpi, List.drop_zero, jitter_parse, hre]
    unfold applyPacketsLoop
    rw [if_pos ?hc]
    case hc => norm_num [CDG_PACKETS_PER_SECOND]
    rfl
  rw [hloop5]
  rw [syncFinish_below]
  · simp only [Prod.fst]
    congr 1
    · rw [hpi]
  · show (5 : ℚ) < jitterPlaying.state.duration
    rw [hdu, jitter_duration]
    norm_num [CDG_PACKETS_PER_SECOND]

theorem jitter_chain_renderer :
    (jitterSynced.syncChain 0 [(3 : ℚ)]).renderer
      = CdgRenderer.init.applyInstruction (.defineTransparent 0) := by
  obtain ⟨hcd, hpl, hpa, hct, hdu, hpi, hre⟩ := jitter_playing_fields
  have hS_cdg : jitterSynced.cdgData = some (parseCdgFile jitterBytes) := by
    rw [jitter_synced_eq]; exact hcd
  have hS_play : jitterSynced.state.playing = true := by
    rw [jitter_synced_eq]; exact hpl
  have hS_pause : jitterSynced.state.paused = false := by
    rw [jitter_synced_eq]; exact hpa
  have hS_cur : jitterSynced.state.currentTime = 5 := by
    rw [jitter_synced_eq]
  have hS_dur : jitterSynced.state.duration = (parseCdgFile jitterBytes).durationMs := by
    rw [jitter_synced_eq]; exact hdu
  have hS_rend : jitterSynced.renderer
      = CdgRenderer.init.applyInstruction (.defineTransparent 0) := by
    rw [jitter_synced_eq]
  show ((jitterSynced.syncToAudioTime 0 3).1).renderer = _
  unfold CdgPlayer.syncToAudioTime
  simp only [hS_cdg]
  rw [if_neg (by simp [hS_play, hS_pause])]
  rw [if_neg (by rw [hS_cur]; norm_num)]
  rw [if_neg (by rw [hS_cur]; norm_num)]
  rw [syncFinish_below]
  · exact hS_rend
  · show (3 : ℚ) < jitterSynced.state.duration
    rw [hS_dur, jitter_duration]
    norm_num [CDG_PACKETS_PER_SECOND]

theorem jitter_seek_renderer :
    ((jitterSynced.seek 0 3).1).renderer = CdgRenderer.init := by
  obtain ⟨hcd, hpl, hpa, hct, hdu, hpi, hre⟩ := jitter_playing_fields
  have hS_cdg : jitterSynced.cdgData = some (parseCdgFile jitterBytes) := by
    rw [jitter_synced_eq]; exact hcd
  have hS_dur : jitterSynced.state.duration = (parseCdgFile jitterBytes).durationMs := by
    rw [jitter_synced_eq]; exact hdu
  have h := (seek_spec jitterSynced (parseCdgFile jitterBytes) 0 3 hS_cdg).1
  rw [jitter_parse] at h
  rw [List.takeWhile_cons_of_neg ?hc] at h
  case hc =>
    simp only [timeLE, decide_eq_true_eq, hS_dur, jitter_duration]
    norm_num [CDG_PACKETS_PER_SECOND]
  exact h

/-- C1: every 24-byte packet whose command byte masks (low 6 bits) to 0x09 and whose opcode masks to one of the nine known values decodes to exactly one instruction whose fields follow the documented bit layout: memory-preset colour and repeat are the low 4 bits of data bytes 0 and 1; tile row and column are the low 5 and 6 bits of data bytes 2 and 3, with each pixel row the low 6 bits of data bytes 4..15; scroll hScroll and vScroll are bits 4-5 of data bytes 1 and 2 with hOffset and vOffset their low 3 and 4 bits; each colour-table entry unpacks two 6-bit bytes into three 4-bit channels, each scaled by 17. -/
theorem c1_decode_layout (c o r2 r3 t20 t21 t22 t23 : Nat)
    (d0 d1 d2 d3 d4 d5 d6 d7 d8 d9 d10 d11 d12 d13 d14 d15 : Nat)
    (hc : c % 64 = 9)
    (hb : ∀ b ∈ [d0, d1, d2, d3, d4, d5, d6, d7, d8, d9, d10, d11, d12, d13, d14, d15],
        b < 256) :
    (o % 64 = 1 → (parseCdgFile (c :: o :: r2 :: r3 ::
        ([d0, d1, d2, d3, d4, d5, d6, d7, d8, d9, d10, d11, d12, d13, d14, d15]
          ++ [t20, t21, t22, t23]))).packets
      = [{ timeMs := 0, instruction := some (.memoryPreset (d0 % 16) (d1 % 16)) }])
    ∧ (o % 64 = 2 → (parseCdgFile (c :: o :: r2 :: r3 ::
        ([d0, d1, d2, d3, d4, d5, d6, d7, d8, d9, d10, d11, d12, d13, d14, d15]
          ++ [t20, t21, t22, t23]))).packets
      = [{ timeMs := 0, instruction := some (.borderPreset (d0 % 16)) }])
    ∧ (o % 64 = 6 → (parseCdgFile (c :: o :: r2 :: r3 ::
        ([d0, d1, d2, d3, d4, d5, d6, d7, d8, d9, d10, d11, d12, d13, d14, d15]
          ++ [t20, t21, t22, t23]))).packets
      = [{ timeMs := 0, instruction := some (.tileBlock false (d0 % 16) (d1 % 16)
            (d2 % 32) (d3 % 64)
            [d4 % 64, d5 % 64, d6 % 64, d7 % 64, d8 % 64, d9 % 64, d10 % 64, d11 % 64,
              d12 % 64, d13 % 64, d14 % 64, d15 % 64]) }])
    ∧ (o % 64 = 38 → (parseCdgFile (c :: o :: r2 :: r3 ::
        ([d0, d1, d2, d3, d4, d5, d6, d7, d8, d9, d10, d11, d12, d13, d14, d15]
          ++ [t20, t21, t22, t23]))).packets
      = [{ timeMs := 0, instruction := some (.tileBlock true (d0 % 16) (d1 % 16)
            (d2 % 32) (d3 % 64)
            [d4 % 64, d5 % 64, d6 % 64, d7 % 64, d8 % 64, d9 % 64, d10 % 64, d11 % 64,
              d12 % 64, d13 % 64, d14 % 64, d15 % 64]) }])
    ∧ (o % 64 = 20 → (parseCdgFile (c :: o :: r2 :: r3 ::
        ([d0, d1, d2, d3, d4, d5, d6, d7, d8, d9, d10, d11, d12, d13, d14, d15]
          ++ [t20, t21, t22, t23]))).packets
      = [{ timeMs := 0, instruction := some (.scroll false (d0 % 16)
            (d1 / 16 % 4) (d2 / 16 % 4) (d1 % 8) (d2 % 16)) }])
    ∧ (o % 64 = 24 → (parseCdgFile (c :: o :: r2 :: r3 ::
        ([d0, d1, d2, d3, d4, d5, d6, d7, d8, d9, d10, d11, d12, d13, d14, d15]
          ++ [t20, t21, t22, t23]))).packets
      = [{ timeMs := 0, instruction := some (.scroll true (d0 % 16)
            (d1 / 16 % 4) (d2 / 16 % 4) (d1 % 8) (d2 % 16)) }])
    ∧ (o % 64 = 28 → (parseCdgFile (c :: o :: r2 :: r3 ::
        ([d0, d1, d2, d3, d4, d5, d6, d7, d8, d9, d10, d11, d12, d13, d14, d15]
          ++ [t20, t21, t22, t23]))).packets
      = [{ timeMs := 0, instruction := some (.defineTransparent (d0 % 16)) }])
    ∧ (o % 64 = 30 → (parseCdgFile (c :: o :: r2 :: r3 ::
        ([d0, d1, d2, d3, d4, d5, d6, d7, d8, d9, d10, d11, d12, d13, d14, d15]
          ++ [t20, t21, t22, t23]))).packets
      = [{ timeMs := 0, instruction := some (.loadColorTable 0
            [ { r := d0 % 64 / 4 * 17, g := (d0 % 4 * 4 + d1 % 64 / 16) * 17, b := d1 % 16 * 17 },
              { r := d2 % 64 / 4 * 17, g := (d2 % 4 * 4 + d3 % 64 / 16) * 17, b := d3 % 16 * 17 },
              { r := d4 % 64 / 4 * 17, g := (d4 % 4 * 4 + d5 % 64 / 16) * 17, b := d5 % 16 * 17 },
              { r := d6 % 64 / 4 * 17, g := (d6 % 4 * 4 + d7 % 64 / 16) * 17, b := d7 % 16 * 17 },
              { r := d8 % 64 / 4 * 17, g := (d8 % 4 * 4 + d9 % 64 / 16) * 17, b := d9 % 16 * 17 },
              { r := d10 % 64 / 4 * 17, g := (d10 % 4 * 4 + d11 % 64 / 16) * 17, b := d11 % 16 * 17 },
              { r := d12 % 64 / 4 * 17, g := (d12 % 4 * 4 + d13 % 64 / 16) * 17, b := d13 % 16 * 17 },
              { r := d14 % 64 / 4 * 17, g := (d14 % 4 * 4 + d15 % 64 / 16) * 17, b := d15 % 16 * 17 } ]) }])
    ∧ (o % 64 = 31 → (parseCdgFile (c :: o :: r2 :: r3 ::
        ([d0, d1, d2, d3, d4, d5, d6, d7, d8, d9, d10, d11, d12, d13, d14, d15]
          ++ [t20, t21, t22, t23]))).packets
      = [{ timeMs := 0, instruction := some (.loadColorTable 8
            [ { r := d0 % 64 / 4 * 17, g := (d0 % 4 * 4 + d1 % 64 / 16) * 17, b := d1 % 16 * 17 },
              { r := d2 % 64 / 4 * 17, g := (d2 % 4 * 4 + d3 % 64 / 16) * 17, b := d3 % 16 * 17 },
              { r := d4 % 64 / 4 * 17, g := (d4 % 4 * 4 + d5 % 64 / 16) * 17, b := d5 % 16 * 17 },
              { r := d6 % 64 / 4 * 17, g := (d6 % 4 * 4 + d7 % 64 / 16) * 17, b := d7 % 16 * 17 },
              { r := d8 % 64 / 4 * 17, g := (d8 % 4 * 4 + d9 % 64 / 16) * 17, b := d9 % 16 * 17 },
              { r := d10 % 64 / 4 * 17, g := (d10 % 4 * 4 + d11 % 64 / 16) * 17, b := d11 % 16 * 17 },
              { r := d12 % 64 / 4 * 17, g := (d12 % 4 * 4 + d13 % 64 / 16) * 17, b := d13 % 16 * 17 },
              { r := d14 % 64 / 4 * 17, g := (d14 % 4 * 4 + d15 % 64 / 16) * 17, b := d15 % 16 * 17 } ]) }]) := by
  have hc64 : c &&& 63 = 9 := by rw [land_63]; exact hc
  have base := parseCdgFile_single c o r2 r3
    [d0, d1, d2, d3, d4, d5, d6, d7, d8, d9, d10, d11, d12, d13, d14, d15]
    [t20, t21, t22, t23] hc64 rfl rfl
  rw [land_63] at base
  have h1 : d1 < 256 := hb d1 (by simp)
  have h2 : d2 < 256 := hb d2 (by simp)
  have hmm : ∀ x : Nat, x % 64 % 4 = x % 4 := fun x =>
    Nat.mod_mod_of_dvd x (by norm_num)
  have hmm16 : ∀ x : Nat, x % 64 % 16 = x % 16 := fun x =>
    Nat.mod_mod_of_dvd x (by norm_num)
  have hgR : ∀ x : Nat, (x % 64 &&& 60) >>> 2 = x % 64 / 4 := fun x =>
    ct_r64 (x % 64) (Nat.mod_lt x (by norm_num))
  have hgG : ∀ x y : Nat, (((x % 64 &&& 3) <<< 2) ||| ((y % 64 &&& 48) >>> 4))
      = x % 4 * 4 + y % 64 / 16 := fun x y => by
    rw [ct_g (x % 64) (Nat.mod_lt x (by norm_num)) (y % 64) (Nat.mod_lt y (by norm_num)), hmm]
  refine ⟨fun ho => ?_, fun ho => ?_, fun ho => ?_, fun ho => ?_, fun ho => ?_,
    fun ho => ?_, fun ho => ?_, fun ho => ?_, fun ho => ?_⟩ <;>
    rw [ho] at base <;> rw [base] <;>
    simp only [parseInstruction, INST_MEMORY_PRESET, INST_BORDER_PRESET, INST_TILE_BLOCK,
      INST_TILE_BLOCK_XOR, INST_SCROLL_PRESET, INST_SCROLL_COPY, INST_DEFINE_TRANSPARENT,
      INST_LOAD_COLOR_TABLE_LO, INST_LOAD_COLOR_TABLE_HI] <;>
    norm_num [land_15, land_63, land_31, land_7, List.getD_cons_zero, List.getD_cons_succ,
      bits45_byte d1 h1, bits45_byte d2 h2, hmm, hmm16] <;>
    rw [show List.range 8 = [0, 1, 2, 3, 4, 5, 6, 7] from rfl] <;>
    simp [hgR, hgG, hmm16]

theorem c1_witness :
    ((9 : Nat) % 64 = 9)
    ∧ (∀ b ∈ [1, 2, 3, 4, 63, 0, 63, 0, 63, 0, 63, 0, 63, 0, 63, 0], b < 256)
    ∧ (parseCdgFile (9 :: 6 :: 0 :: 0 ::
        ([1, 2, 3, 4, 63, 0, 63, 0, 63, 0, 63, 0, 63, 0, 63, 0] ++ [0, 0, 0, 0]))).packets
      = [{ timeMs := 0, instruction := some (.tileBlock false 1 2 3 4
            [63, 0, 63, 0, 63, 0, 63, 0, 63, 0, 63, 0]) }] := by
  refine ⟨rfl, by decide, ?_⟩
  have h := (c1_decode_layout 9 6 0 0 0 0 0 0 1 2 3 4 63 0 63 0 63 0 63 0 63 0 63 0
    rfl (by decide)).2.2.1 rfl
  simpa using h

/-- C2 (failing input): decoding a scroll-preset packet with data bytes 0x07 and 0x0f yields hOffset 7 and vOffset 15 (the decoder masks 3 and 4 bits); loading that packet stores these values unclamped in the renderer, outside the documented 0..5 and 0..11 ranges, and the visible-frame window then addresses an index at or beyond 300*216, outside the pixel buffer. -/
theorem c2_offset_escapes_range :
    (parseCdgFile scrollOffsetPacket).packets
        = [{ timeMs := 0, instruction := some (.scroll false 0 0 0 7 15) }]
    ∧ ((CdgPlayer.init.loadSong scrollOffsetPacket "a" "t" "s" 0).1.renderer.hOffset = 7
        ∧ (CdgPlayer.init.loadSong scrollOffsetPacket "a" "t" "s" 0).1.renderer.vOffset = 15)
    ∧ ¬(7 ≤ 5 ∧ 15 ≤ 11)
    ∧ (CDG_VISIBLE_HEIGHT - 1 + CDG_BORDER_Y + 15) * CDG_WIDTH
        + (CDG_VISIBLE_WIDTH - 1 + CDG_BORDER_X + 7) ≥ CDG_WIDTH * CDG_HEIGHT := by
  have hparse : (parseCdgFile scrollOffsetPacket).packets
      = [{ timeMs := 0, instruction := some (.scroll false 0 0 0 7 15) }] := by
    have h := parseCdgFile_single 0x09 20 0 0 [0, 0x07, 0x0f, 0, 0, 0, 0, 0, 0, 0, 0, 0, 0, 0, 0, 0]
      [0, 0, 0, 0] (by decide) (by decide) (by decide)
    rw [show (parseInstruction (20 &&& 63)
        [0, 0x07, 0x0f, 0, 0, 0, 0, 0, 0, 0, 0, 0, 0, 0, 0, 0])
        = some (.scroll false 0 0 0 7 15) from by decide] at h
    exact h
  have hrend : (CdgPlayer.init.loadSong scrollOffsetPacket "a" "t" "s" 0).1.renderer
      = CdgRenderer.init.applyInstruction (.scroll false 0 0 0 7 15) := by
    show (applyPacketsLoop 0 ((parseCdgFile scrollOffsetPacket).packets.drop 0)
        CdgRenderer.init).2 = _
    rw [List.drop_zero, hparse]
    unfold applyPacketsLoop
    rw [if_pos (le_refl (0 : ℚ))]
    rfl
  refine ⟨hparse, ⟨?_, ?_⟩, by decide, by decide⟩ <;> rw [hrend] <;> rfl

/-- C3: on a loaded file, seek(t) leaves the renderer exactly equal to resetting it and replaying, in order, every decoded instruction with timestamp at most t clamped to [0, duration]; the visible RGBA frames agree as well. -/
theorem c3_seek_full_replay (bytes : List Nat) (pl : CdgPlayer) (now t : ℚ)
    (hd : pl.cdgData = some (parseCdgFile bytes))
    (hdur : pl.state.duration = (parseCdgFile bytes).durationMs) :
    ((pl.seek now t).1).renderer
        = replayList ((parseCdgFile bytes).packets.filter
            (timeLE (max 0 (min t (parseCdgFile bytes).durationMs)))) CdgRenderer.init
    ∧ ((pl.seek now t).1).renderer.getVisibleRgbaFrame
        = (replayList ((parseCdgFile bytes).packets.filter
            (timeLE (max 0 (min t (parseCdgFile bytes).durationMs))))
            CdgRenderer.init).getVisibleRgbaFrame := by
  have h := (seek_spec pl (parseCdgFile bytes) now t hd).1
  rw [hdur] at h
  rw [takeWhile_eq_filter_sorted _ _ (parse_sorted bytes)] at h
  exact ⟨h, by rw [h]⟩

theorem c3_witness :
    ((CdgPlayer.init.loadSong presetPacket "a" "t" "s" 0).1.cdgData
        = some (parseCdgFile presetPacket))
    ∧ ((CdgPlayer.init.loadSong presetPacket "a" "t" "s" 0).1.state.duration
        = (parseCdgFile presetPacket).durationMs)
    ∧ (((CdgPlayer.init.loadSong presetPacket "a" "t" "s" 0).1.seek 0 5).1).renderer
        = replayList ((parseCdgFile presetPacket).packets.filter
            (timeLE (max 0 (min 5 (parseCdgFile presetPacket).durationMs)))) CdgRenderer.init :=
  ⟨rfl, rfl,
    (c3_seek_full_replay presetPacket (CdgPlayer.init.loadSong presetPacket "a" "t" "s" 0).1
      0 5 rfl rfl).1⟩

/-- C4 (amended): from a consistent playing-and-unpaused state whose replay cursor matches its current time, a strictly increasing sequence of syncToAudioTime calls whose last value tn is below the duration and not below the starting current time leaves the renderer exactly as a single seek(tn) does, including the visible RGBA frame. -/
theorem c4_monotone_sync_equals_seek (bytes : List Nat) (pl : CdgPlayer) (now : ℚ)
    (ts : List ℚ) (tn : ℚ) (hne : ts ≠ [])
    (hd : pl.cdgData = some (parseCdgFile bytes))
    (hplay : pl.state.playing = true) (hpause : pl.state.paused = false)
    (hdur : pl.state.duration = (parseCdgFile bytes).durationMs)
    (hidx : pl.packetIndex = countLE (parseCdgFile bytes).packets pl.state.currentTime)
    (hrend : pl.renderer = replayList ((parseCdgFile bytes).packets.take pl.packetIndex)
        CdgRenderer.init)
    (hchain : ts.Chain' (· < ·)) (hlast : ts.getLast hne = tn)
    (htn : tn < (parseCdgFile bytes).durationMs)
    (hcur : pl.state.currentTime ≤ tn) (h0 : 0 ≤ pl.state.currentTime) :
    (pl.syncChain now ts).renderer = ((pl.seek now tn).1).renderer
    ∧ (pl.syncChain now ts).renderer.getVisibleRgbaFrame
        = ((pl.seek now tn).1).renderer.getVisibleRgbaFrame := by
  have hsort := parse_sorted bytes
  have h0tn : (0 : ℚ) ≤ tn := le_trans h0 hcur
  have hinv0 : SyncInv (parseCdgFile bytes) tn pl :=
    ⟨hd, hplay, hpause, hdur, hrend, le_of_eq hidx.symm,
      hidx ▸ countLE_mono _ hcur, hcur⟩
  have hall : ∀ u ∈ ts.dropLast, u ≤ tn := fun u hu =>
    hlast ▸ chain_le_getLast ts hne hchain u (List.dropLast_subset ts hu)
  have hsplit : ts.dropLast ++ [tn] = ts := by
    rw [← hlast]
    exact List.dropLast_append_getLast hne
  have hmid := syncChain_inv (parseCdgFile bytes) tn now hsort htn h0tn ts.dropLast pl
    hinv0 hall
  have hchain_eq : pl.syncChain now ts
      = (((pl.syncChain now ts.dropLast)).syncToAudioTime now tn).1 := by
    conv_lhs => rw [← hsplit]
    unfold CdgPlayer.syncChain
    rw [List.foldl_append]
    rfl
  have hfin := sync_last (parseCdgFile bytes) tn now _ hsort htn hmid
  have hseek := (seek_spec pl (parseCdgFile bytes) now tn hd).1
  have hclamp : max 0 (min tn pl.state.duration) = tn := by
    rw [hdur, min_eq_left (le_of_lt htn), max_eq_right h0tn]
  rw [hclamp] at hseek
  have hmain : (pl.syncChain now ts).renderer = ((pl.seek now tn).1).renderer := by
    rw [hchain_eq, hfin, hseek]
  exact ⟨hmain, by rw [hmain]⟩

/-- C4 counterexample: from a reachable playing state at current time 5, with a define-transparent instruction at 10/3 ms already applied, the increasing sequence [3] (with 3 below the duration) leaves the alpha byte of visible pixel (0,0) at 0, while seek(3) from the same state yields 255; the claim as stated fails when the whole sequence lies below the current time. -/
theorem c4_counterexample :
    jitterSynced.state.playing = true
    ∧ jitterSynced.state.paused = false
    ∧ List.Chain' (· < ·) [(3 : ℚ)]
    ∧ (3 : ℚ) < (parseCdgFile jitterBytes).durationMs
    ∧ (jitterSynced.syncChain 0 [(3 : ℚ)]).renderer.getVisibleRgbaFrame 3 = 0
    ∧ ((jitterSynced.seek 0 3).1).renderer.getVisibleRgbaFrame 3 = 255 := by
  obtain ⟨hcd, hpl, hpa, hct, hdu, hpi, hre⟩ := jitter_playing_fields
  refine ⟨by rw [jitter_synced_eq]; exact hpl, by rw [jitter_synced_eq]; exact hpa,
    by simp, ?_, ?_, ?_⟩
  · rw [jitter_duration]
    norm_num [CDG_PACKETS_PER_SECOND]
  · rw [jitter_chain_renderer]
    rfl
  · rw [jitter_seek_renderer]
    rfl

theorem c4_witness :
    jitterPlaying.cdgData = some (parseCdgFile jitterBytes)
    ∧ jitterPlaying.state.playing = true
    ∧ jitterPlaying.state.currentTime ≤ 3
    ∧ (jitterPlaying.syncChain 0 [(3 : ℚ)]).renderer
        = ((jitterPlaying.seek 0 3).1).renderer := by
  obtain ⟨hcd, hpl, hpa, hct, hdu, hpi, hre⟩ := jitter_playing_fields
  have hcount : countLE (parseCdgFile jitterBytes).packets jitterPlaying.state.currentTime
      = 0 := by
    rw [hct, jitter_parse]
    unfold countLE
    rw [List.takeWhile_cons_of_neg ?hc]
    case hc =>
      simp only [timeLE, decide_eq_true_eq]
      norm_num [CDG_PACKETS_PER_SECOND]
    rfl
  have h := c4_monotone_sync_equals_seek jitterBytes jitterPlaying 0 [(3 : ℚ)] 3
    (by simp) hcd hpl hpa hdu (by rw [hpi, hcount]) (by rw [hre, hpi]; rfl)
    (by simp) rfl
    (by rw [jitter_duration]; norm_num [CDG_PACKETS_PER_SECOND])
    (by rw [hct]; norm_num) (by rw [hct])
  exact ⟨hcd, hpl, by rw [hct]; norm_num, h.1⟩

/-- C5: applying any decoder-produced instruction (all fields pre-masked by parseInstruction) to a renderer whose grid cells are all below 16 yields a renderer whose grid cells are all below 16; this covers memory preset, border preset, tile write, tile XOR and both scroll modes. -/
theorem c5_grid_range_preserved (op : Nat) (data : List Nat) (inst : CdgInstruction)
    (rend : CdgRenderer) (hparse : parseInstruction op data = some inst)
    (hpix : ∀ i, rend.pixels i < 16) :
    ∀ i, (rend.applyInstruction inst).pixels i < 16 :=
  applyInstruction_pixels_lt inst rend (parseInstruction_wf op data inst hparse) hpix

theorem c5_witness :
    (parseInstruction 1 [3, 0, 0, 0, 0, 0, 0, 0, 0, 0, 0, 0, 0, 0, 0, 0]
        = some (.memoryPreset 3 0))
    ∧ (∀ i, CdgRenderer.init.pixels i < 16)
    ∧ (CdgRenderer.init.applyInstruction (.memoryPreset 3 0)).pixels 0 < 16 :=
  ⟨by decide, fun _ => by norm_num [CdgRenderer.init],
    c5_grid_range_preserved 1 [3, 0, 0, 0, 0, 0, 0, 0, 0, 0, 0, 0, 0, 0, 0, 0]
      (.memoryPreset 3 0) CdgRenderer.init (by decide)
      (fun _ => by norm_num [CdgRenderer.init]) 0⟩

/-- C6 (amended): with no song loaded and the transport fields at their unloaded values, play, pause, seek and syncToAudioTime return the player unchanged and emit nothing; stop also leaves the player unchanged but still emits a stop event. -/
theorem c6_unloaded_clock_ops (pl : CdgPlayer) (now t : ℚ)
    (hd : pl.cdgData = none) (hp : pl.state.playing = false)
    (hpa : pl.state.paused = false) (hct : pl.state.currentTime = 0)
    (ha : pl.animationFrame = false) :
    pl.play now = (pl, [])
    ∧ pl.pause now = (pl, [])
    ∧ pl.seek now t = (pl, [])
    ∧ pl.syncToAudioTime now t = (pl, [])
    ∧ (pl.stop).1 = pl ∧ (pl.stop).2 = [.stopEv pl.state] := by
  obtain ⟨cd, rend, st, af, lu, pi, stt, pt⟩ := pl
  obtain ⟨p1, p2, ct, du, ti, si, so, ap⟩ := st
  simp only at hd hp hpa hct ha
  subst hd hp hpa hct ha
  refine ⟨rfl, ?_, rfl, rfl, rfl, rfl⟩
  unfold CdgPlayer.pause
  rw [if_pos]
  simp

theorem c6_witness :
    (CdgPlayer.init.cdgData = none ∧ CdgPlayer.init.state.playing = false
      ∧ CdgPlayer.init.state.paused = false ∧ CdgPlayer.init.state.currentTime = 0
      ∧ CdgPlayer.init.animationFrame = false)
    ∧ CdgPlayer.init.play 0 = (CdgPlayer.init, [])
    ∧ CdgPlayer.init.seek 0 7 = (CdgPlayer.init, [])
    ∧ (CdgPlayer.init.stop).2 = [.stopEv CdgPlayer.init.state] := by
  have h := c6_unloaded_clock_ops CdgPlayer.init 0 7 rfl rfl rfl rfl rfl
  exact ⟨⟨rfl, rfl, rfl, rfl, rfl⟩, h.1, h.2.2.1, h.2.2.2.2.2⟩

/-- C6 counterexample: stop() on the freshly constructed, unloaded player emits one event, contradicting the claim that stop is silent when no song is loaded. -/
theorem c6_stop_emits_when_unloaded :
    CdgPlayer.init.cdgData = none ∧ (CdgPlayer.init.stop).2.length = 1 := ⟨rfl, rfl⟩

/-- C7: the duration reported by decode equals floor(byteLength / 24) / 300 * 1000 milliseconds for every input byte string; a buffer of 300*24 bytes yields 1000 ms, 150*24 bytes yield 500 ms, and 300*24+10 bytes still yield 1000 ms because trailing partial-packet bytes are dropped. -/
theorem c7_duration_formula :
    (∀ bytes : List Nat, (parseCdgFile bytes).durationMs
        = ((bytes.length / CDG_PACKET_SIZE : Nat) : ℚ) / 300 * 1000)
    ∧ (parseCdgFile (List.replicate (300 * 24) 0)).durationMs = 1000
    ∧ (parseCdgFile (List.replicate (150 * 24) 0)).durationMs = 500
    ∧ (parseCdgFile (List.replicate (300 * 24 + 10) 0)).durationMs = 1000 := by
  have h : ∀ bytes : List Nat, (parseCdgFile bytes).durationMs
      = ((bytes.length / CDG_PACKET_SIZE : Nat) : ℚ) / 300 * 1000 := fun _ => rfl
  refine ⟨h, ?_, ?_, ?_⟩ <;>
    · rw [h, List.length_replicate]
      norm_num [CDG_PACKET_SIZE]

/-- C8: applying the same in-bounds XOR tile-block instruction twice in succession restores every pixel of the grid to its value before the first application. -/
theorem c8_xor_involutive (rend : CdgRenderer) (c0 c1 row col : Nat) (px : List Nat)
    (hb : col * CDG_TILE_WIDTH + CDG_TILE_WIDTH ≤ CDG_WIDTH
        ∧ row * CDG_TILE_HEIGHT + CDG_TILE_HEIGHT ≤ CDG_HEIGHT) :
    ∀ i, ((rend.applyInstruction (.tileBlock true c0 c1 row col px)).applyInstruction
        (.tileBlock true c0 c1 row col px)).pixels i = rend.pixels i := by
  intro i
  show ((CdgRenderer.drawTile _ true c0 c1 row col px).drawTile true c0 c1 row col px).pixels i
      = rend.pixels i
  unfold CdgRenderer.drawTile
  have hg : ¬(col * CDG_TILE_WIDTH + CDG_TILE_WIDTH > CDG_WIDTH
      ∨ row * CDG_TILE_HEIGHT + CDG_TILE_HEIGHT > CDG_HEIGHT) := by omega
  simp only [if_neg hg]
  by_cases hr : row * CDG_TILE_HEIGHT ≤ i / CDG_WIDTH
      ∧ i / CDG_WIDTH < row * CDG_TILE_HEIGHT + CDG_TILE_HEIGHT
      ∧ col * CDG_TILE_WIDTH ≤ i % CDG_WIDTH
      ∧ i % CDG_WIDTH < col * CDG_TILE_WIDTH + CDG_TILE_WIDTH
  · simp only [if_pos hr, if_true, Nat.xor_cancel_right]
  · simp only [if_neg hr, if_true]

theorem c8_witness :
    (0 * CDG_TILE_WIDTH + CDG_TILE_WIDTH ≤ CDG_WIDTH
        ∧ 0 * CDG_TILE_HEIGHT + CDG_TILE_HEIGHT ≤ CDG_HEIGHT)
    ∧ ((CdgRenderer.init.applyInstruction
          (.tileBlock true 0 3 0 0 (List.replicate 12 63))).applyInstruction
        (.tileBlock true 0 3 0 0 (List.replicate 12 63))).pixels 0 = CdgRenderer.init.pixels 0 :=
  ⟨⟨by decide, by decide⟩,
    c8_xor_involutive CdgRenderer.init 0 3 0 0 (List.replicate 12 63) ⟨by decide, by decide⟩ 0⟩

/-- C9: a border-preset instruction sets every pixel of the top and bottom 12-pixel bands and of the left and right 6-pixel bands to the given colour and leaves every pixel of the inner 288x192 area unchanged. -/
theorem c9_border_preset (rend : CdgRenderer) (c x y : Nat)
    (hx : x < CDG_WIDTH) (hy : y < CDG_HEIGHT) :
    (rend.applyInstruction (.borderPreset c)).pixels (y * CDG_WIDTH + x)
      = if y < CDG_BORDER_Y ∨ CDG_HEIGHT - CDG_BORDER_Y ≤ y
            ∨ x < CDG_BORDER_X ∨ CDG_WIDTH - CDG_BORDER_X ≤ x then c
        else rend.pixels (y * CDG_WIDTH + x) := by
  simp only [CDG_WIDTH, CDG_HEIGHT, CDG_BORDER_X, CDG_BORDER_Y] at hx hy ⊢
  have hmod : (y * 300 + x) % 300 = x := by omega
  have hdiv : (y * 300 + x) / 300 = y := by omega
  show (CdgRenderer.drawBorder _ c).pixels (y * 300 + x) = _
  unfold CdgRenderer.drawBorder
  simp only [CDG_WIDTH, CDG_HEIGHT, CDG_BORDER_X, CDG_BORDER_Y, hmod, hdiv]
  have hiff : ((y < 12) ∨ (216 - 12 ≤ y ∧ y < 216) ∨ (12 ≤ y ∧ y < 216 - 12 ∧ x < 6)
        ∨ (12 ≤ y ∧ y < 216 - 12 ∧ 300 - 6 ≤ x))
      ↔ (y < 12 ∨ 216 - 12 ≤ y ∨ x < 6 ∨ 300 - 6 ≤ x) := by omega
  simp only [hiff]

theorem c9_witness :
    (0 < CDG_WIDTH ∧ 0 < CDG_HEIGHT)
    ∧ (CdgRenderer.init.applyInstruction (.borderPreset 5)).pixels (0 * CDG_WIDTH + 0)
      = if (0 : Nat) < CDG_BORDER_Y ∨ CDG_HEIGHT - CDG_BORDER_Y ≤ 0
            ∨ (0 : Nat) < CDG_BORDER_X ∨ CDG_WIDTH - CDG_BORDER_X ≤ 0 then 5
        else CdgRenderer.init.pixels (0 * CDG_WIDTH + 0) :=
  ⟨⟨by decide, by decide⟩, c9_border_preset CdgRenderer.init 5 0 0 (by decide) (by decide)⟩

/-- C10: whenever the clock is not playing, or is playing but paused, syncToAudioTime returns the player unchanged (no replay, no time update) and emits no event. -/
theorem c10_sync_guard (pl : CdgPlayer) (now t : ℚ)
    (h : ¬pl.state.playing ∨ pl.state.paused) :
    pl.syncToAudioTime now t = (pl, []) := by
  unfold CdgPlayer.syncToAudioTime
  cases hd : pl.cdgData with
  | none => rfl
  | some cdg => simp only [if_pos h]

theorem c10_witness :
    (¬CdgPlayer.init.state.playing ∨ CdgPlayer.init.state.paused)
    ∧ CdgPlayer.init.syncToAudioTime 0 5 = (CdgPlayer.init, []) :=
  ⟨Or.inl (by decide), c10_sync_guard CdgPlayer.init 0 5 (Or.inl (by decide))⟩

end Cdg
